import Mathlib

/-!
Verification of the assets-service core: credential protocols (read token,
signed URL), the cipher, the tag-key access gate, and the storage path
engine with its write/rollback discipline.

The definitions are a shallow embedding of the TypeScript source:
  - `src/lib/secret.ts`         (encrypt / decrypt)
  - `src/lib/multer.ts`         (generateStoragePath, getFullFilePath)
  - `src/services/secret.service.ts`  (generateReadToken, verifyReadToken)
  - `src/services/asset.service.ts`   (createAsset, generateSignedUrl,
                                       verifySignedUrl)
  - `src/controllers/serve.controller.ts` (accessorViaReadToken,
                                           ServeCreateAssetSchema)
Database access (`db.*.findFirst` on Prisma) is modelled as `List.find?`
over explicit row lists; timestamps are milliseconds since the epoch as
`Int`; the filesystem is the list of paths that currently hold a file.
-/

namespace AssetsService

/-- Error taxonomy of the service (spec section 7).  In the source these are
`NotFoundError` / `UnauthorizedError` instances distinguished by message;
the `dbError` constructor stands for an arbitrary error thrown by the
persistence layer (`db.asset.create`). -/
inductive Err where
  | notFound
  | expiredSecret
  | invalidToken
  | expiredError
  | wrongBucket
  | noKeyOverlap
  | typeError
  | tokenRequired
  | payloadError
  | dbError (code : Nat)
  deriving DecidableEq, Repr

/-- A `Secret` row: id, value encrypted under the master key, optional
expiry, optional validation URI, owner. -/
structure SecretRow where
  id : String
  secret : String
  expiresAt : Option Int
  validationUri : Option String
  userId : String
  deriving DecidableEq, Repr

/-- A `Bucket` row: id, name, owner. -/
structure BucketRow where
  id : String
  name : String
  userId : String
  deriving DecidableEq, Repr

/-- An `Asset` row: id, display name, size (recorded in kilobytes), the
tilde-joined tag-key string (nullable), storage reference, owning bucket. -/
structure AssetRow where
  id : String
  name : String
  size : Nat
  keys : Option String
  ref : String
  bucketId : String
  deriving DecidableEq, Repr

/-- The durable store visible to the service. -/
structure DB where
  secrets : List SecretRow
  buckets : List BucketRow
  assets : List AssetRow
  deriving DecidableEq, Repr

/-- `secret.expiresAt && secret.expiresAt < new Date()` — the expiry check
performed after every secret lookup. -/
def isExpired (expiresAt : Option Int) (now : Int) : Bool :=
  match expiresAt with
  | some e => decide (e < now)
  | none => false

/-- A compact signed token as produced by the jwt helper: either malformed,
or a well-formed token carrying its (encrypted) payload claim, the key it
was signed with, and its absolute expiry claim (ms). -/
inductive Jwt where
  | malformed
  | token (payload : String) (sigKey : String) (exp : Int)
  deriving DecidableEq, Repr

/-- Modelled from the spec: `sign`, `safeDecode` and `safeVerify` are
imported from `~/lib/jwt`, a repository file not present under `src/`.
Spec section 4.2: `decodeUnverified` parses structure and claims without
checking the signature, failing only on malformed input. -/
def safeDecode : Jwt → Option String
  | .malformed => none
  | .token p _ _ => some p

/-- Modelled from the spec: verification with a supplied key (section 4.2)
fails on signature mismatch, and fails once the token's expiry claim has
passed; it succeeds strictly before the expiry instant. -/
def safeVerify (j : Jwt) (key : String) (now : Int) : Option String :=
  match j with
  | .malformed => none
  | .token p k e => if k = key && decide (now < e) then some p else none

/-- Modelled from the spec: `sign(payload, key, ttl)` (section 4.2); if the
computed ttl is non-positive the signing call fails with `ExpiredError`
rather than issue a token whose stated expiry has already passed. -/
def sign (payload key : String) (expiresInSec : Int) (now : Int) : Except Err Jwt :=
  if expiresInSec ≤ 0 then .error .expiredError
  else .ok (.token payload key (now + 1000 * expiresInSec))

/-- `permission: z.enum(["read", "write", "delete"])`. -/
inductive Permission where
  | read
  | write
  | delete
  deriving DecidableEq, Repr

/-- The decrypted read-token claim (`SecretPayloadSchema`). -/
structure SecretPayload where
  secretId : String
  userId : String
  validationUri : Option String
  expireAt : Option Int
  permission : Permission
  bucketId : String
  keys : List String
  issuedAt : Int
  deriving DecidableEq, Repr

/-- The decrypted signed-URL claim (`SignedUrlPayloadSchema`). -/
structure SignedUrlPayload where
  assetId : String
  secretId : String
  deriving DecidableEq, Repr

/-- JavaScript `s.split(sep)` for a single-character separator: splits at
every occurrence, keeping empty fragments (`"".split(sep)` is `[""]`). -/
def splitCharAux (sep : Char) : List Char → List Char → List String
  | [], acc => [String.mk acc.reverse]
  | c :: cs, acc =>
      if c = sep then String.mk acc.reverse :: splitCharAux sep cs []
      else splitCharAux sep cs (c :: acc)

/-- Split a string at every occurrence of a single-character separator. -/
def splitChar (sep : Char) (s : String) : List String :=
  splitCharAux sep s.toList []

/-- Split a tilde-joined string into its fragments (`s.split("~")`). -/
def splitTilde (s : String) : List String :=
  splitChar (Char.ofNat 126) s

/-!  Read-token protocol (`SecretService`, secret.service.ts).

`EncryptedSecretSchema` — `JSON.parse(decrypt(data, MASTER_SECRET_KEY))`
validated against `SecretPayloadSchema` — and its signed-URL counterpart
are passed in as a `decodeP : String → Option _` parameter; the cipher
itself is verified separately below.  `decrypt(secret.secret)` (recovering
the raw secret string used as the signing key) is the `decryptM`
parameter. -/

/-- `SecretService.verifyReadToken`: decode without verifying, decrypt the
claim, refetch the secret by `(secretId, userId)`, check its stored expiry,
verify the signature with the refetched secret's decrypted value, then
re-check bucket ownership. -/
def verifyReadToken (decodeP : String → Option SecretPayload) (decryptM : String → String)
    (st : DB) (now : Int) (readToken : Jwt) : Except Err SecretPayload :=
  match safeDecode readToken with
  | none => .error .invalidToken
  | some decodeValue =>
    match decodeP decodeValue with
    | none => .error .invalidToken
    | some values =>
      match st.secrets.find? (fun s => s.id == values.secretId && s.userId == values.userId) with
      | none => .error .notFound
      | some secret =>
        if isExpired secret.expiresAt now then .error .expiredSecret
        else
          match safeVerify readToken (decryptM secret.secret) now with
          | none => .error .invalidToken
          | some _ =>
            match st.buckets.find? (fun b => b.id == values.bucketId && b.userId == secret.userId) with
            | none => .error .notFound
            | some _ => .ok values

/-- `SecretService.generateReadToken`: resolve the secret by value
(ciphertext equality, `encryptM` is the master-key `encrypt`), check
expiry, check bucket ownership, then sign the encrypted payload with the
secret's decrypted value; ttl is the seconds to the secret's expiry
(`Math.floor((expiresAt - now) / 1000)`) or 30 days when it never expires.
`encodeP` stands for `JSON.stringify`. -/
def generateReadToken (encryptM decryptM : String → String) (encodeP : SecretPayload → String)
    (st : DB) (now : Int) (inputSecret bucketId : String) (keys : List String) :
    Except Err Jwt :=
  match st.secrets.find? (fun s => s.secret == encryptM inputSecret) with
  | none => .error .notFound
  | some secret =>
    if isExpired secret.expiresAt now then .error .expiredSecret
    else
      match st.buckets.find? (fun b => b.id == bucketId && b.userId == secret.userId) with
      | none => .error .notFound
      | some _ =>
        let payload : SecretPayload :=
          { secretId := secret.id
            userId := secret.userId
            validationUri := secret.validationUri
            expireAt := secret.expiresAt
            permission := .read
            bucketId := bucketId
            keys := keys
            issuedAt := now }
        let ttlSec : Int :=
          match secret.expiresAt with
          | some e => Int.fdiv (e - now) 1000
          | none => 2592000
        sign (encryptM (encodeP payload)) (decryptM secret.secret) ttlSec now

/-- `AssetService.verifySignedUrl`: decode without verifying, decrypt the
`{assetId, secretId}` claim, refetch the secret by id, check its stored
expiry, verify the signature, then fetch the asset **by id only** together
with its bucket row (the Prisma `include: { bucket: true }` join). -/
def verifySignedUrl (decodeP : String → Option SignedUrlPayload) (decryptM : String → String)
    (st : DB) (now : Int) (tok : Jwt) : Except Err (AssetRow × BucketRow) :=
  match safeDecode tok with
  | none => .error .invalidToken
  | some payload =>
    match decodeP payload with
    | none => .error .invalidToken
    | some v =>
      match st.secrets.find? (fun s => s.id == v.secretId) with
      | none => .error .notFound
      | some secretRecord =>
        if isExpired secretRecord.expiresAt now then .error .expiredSecret
        else
          match safeVerify tok (decryptM secretRecord.secret) now with
          | none => .error .invalidToken
          | some _ =>
            match st.assets.find? (fun a => a.id == v.assetId) with
            | none => .error .notFound
            | some asset =>
              match st.buckets.find? (fun b => b.id == asset.bucketId) with
              | none => .error .payloadError
              | some bucket => .ok (asset, bucket)

/-!  Storage path engine (multer.ts) and asset creation
(`AssetService.createAsset`). -/

/-- Whether a character list begins with the posix separator `/`. -/
def headIsSlash : List Char → Bool
  | [] => false
  | c :: _ => c = Char.ofNat 47

/-- The segment pass of node's `path.posix.normalize`: empty and `.`
segments are dropped; `..` pops the last kept segment, except that above
the start of a relative path (`allowAboveRoot`) the `..` itself is kept,
and above the root of an absolute path it is discarded.  `stack` holds the
kept segments most recent first. -/
def normalizeSegs (allowAboveRoot : Bool) : List String → List String → List String
  | [], stack => stack.reverse
  | seg :: rest, stack =>
      if seg = "" ∨ seg = "." then normalizeSegs allowAboveRoot rest stack
      else if seg = ".." then
        match stack with
        | [] => normalizeSegs allowAboveRoot rest (if allowAboveRoot then [".."] else [])
        | top :: stackRest =>
            if top = ".." then
              normalizeSegs allowAboveRoot rest (if allowAboveRoot then ".." :: stack else stack)
            else normalizeSegs allowAboveRoot rest stackRest
      else normalizeSegs allowAboveRoot rest (seg :: stack)

/-- Node `path.posix.normalize`: split on `/`, run the segment pass, and
reassemble, preserving a leading slash (absolute path) and a trailing
slash; an empty result collapses to `/`, `./` or `.`. -/
def posixNormalize (p : String) : String :=
  if p = "" then "."
  else
    let isAbs := headIsSlash p.toList
    let trailing := headIsSlash p.toList.reverse
    let stack := normalizeSegs (!isAbs) (splitChar (Char.ofNat 47) p) []
    let res := String.intercalate "/" stack
    if res = "" then
      if isAbs then "/" else if trailing then "./" else "."
    else
      (if isAbs then "/" else "") ++ res ++ (if trailing then "/" else "")

/-- Node `path.posix.join`: the non-empty parts joined with `/` and then
normalized; all parts empty give `.`. -/
def posixJoin (parts : List String) : String :=
  let joined := String.intercalate "/" (parts.filter (fun s => s ≠ ""))
  if joined = "" then "." else posixNormalize joined

/-- `generateStoragePath` (multer.ts): `[...keys, assetId].join("~") + ext`
under `path.posix.join(userId, bucketId, filename)`. -/
def generateStoragePath (userId bucketId : String) (keys : List String)
    (assetId ext : String) : String :=
  let filename := String.intercalate "~" (keys ++ [assetId]) ++ ext
  posixJoin [userId, bucketId, filename]

/-- The runtime behaviour of `generateStoragePath` when `keys` may be
`null` (its TypeScript annotation says `string[]`, but
`AssetService.createAsset` forwards a `string[] | null` value unchecked):
spreading `null` in `[...keys, assetId]` throws a `TypeError`. -/
def generateStoragePathJS (userId bucketId : String) (keys : Option (List String))
    (assetId ext : String) : Except Err String :=
  match keys with
  | none => .error .typeError
  | some ks => .ok (generateStoragePath userId bucketId ks assetId ext)

/-- `getFullFilePath`: `path.posix.join(env.STORAGE_DIRECTORY, relativePath)`. -/
def getFullFilePath (storageDir relativePath : String) : String :=
  posixJoin [storageDir, relativePath]

/-- `writeFileSync`: after the write the path holds a file (an existing
file at the same path is overwritten). -/
def fsWrite (p : String) (fs : List String) : List String :=
  if p ∈ fs then fs else p :: fs

/-- Modelled from the spec: `deleteFile` is imported from `~/utils/file`,
a repository file not present under `src/`.  Spec sections 4.8 and 7: it
removes the file, ignores an already-absent file, and swallows its own
I/O errors (they are logged, never raised), so the compensating delete
never masks the original error. -/
def deleteFileFS (p : String) (fs : List String) : List String :=
  fs.filter (fun q => q ≠ p)

/-- The uploaded file as the service sees it (`Express.Multer.File`):
original name and byte count. -/
structure FileUpload where
  originalname : String
  size : Nat
  deriving DecidableEq, Repr

/-- `AssetService.createAsset`: look up the bucket (ownership enforced),
build the storage path, write the file bytes, persist the metadata row;
on a persistence failure delete the written file and re-raise the original
error.  `sanitize` stands for `sanitizeFilename` and `extnameF` for
`path.extname` (string helpers external to this core); `persistErr` is the
outcome of `db.asset.create` (`none` = the row is written).  Returns the
call's result together with the resulting store and filesystem. -/
def createAsset (sanitize extnameF : String → String) (storageDir : String)
    (st : DB) (fs : List String) (persistErr : Option Err)
    (file : FileUpload) (bucketId userId : String) (keys : Option (List String))
    (assetId : String) : Except Err AssetRow × DB × List String :=
  match st.buckets.find? (fun b => b.id == bucketId && b.userId == userId) with
  | none => (.error .notFound, st, fs)
  | some _ =>
    let sanitizedName := sanitize file.originalname
    -- `Math.ceil(file.size / 1024)`: exact over the integers below 2^53
    let sizeInKB := (file.size + 1023) / 1024
    match generateStoragePathJS userId bucketId keys assetId (extnameF sanitizedName) with
    | .error e => (.error e, st, fs)
    | .ok relativePath =>
      -- ensureStorageDirectory: idempotent directory creation, no file effect
      let fullFilePath := getFullFilePath storageDir relativePath
      let fs1 := fsWrite fullFilePath fs
      match persistErr with
      | some e => (.error e, st, deleteFileFS fullFilePath fs1)
      | none =>
        let asset : AssetRow :=
          { id := assetId
            name := sanitizedName
            size := sizeInKB
            -- `keys ? keys.join("~") : null` (an empty array is truthy)
            keys := keys.map (fun ks => String.intercalate "~" ks)
            ref := relativePath
            bucketId := bucketId }
        (.ok asset, { st with assets := st.assets ++ [asset] }, fs1)

/-- `ServeCreateAssetSchema.keys`: a nullable string, transformed by
`val ? val.split("~").map(trim) : null` — both `null` and the empty string
(falsy) become `null`. -/
def parseServeKeys : Option String → Option (List String)
  | none => none
  | some s => if s = "" then none else some ((splitTilde s).map String.trim)

/-- `ServeController.accessorViaReadToken`: fetch the asset by id (after
`removeExtension` on the route parameter); a `null` keys field serves the
file to anyone; otherwise require the `read-token` cookie, verify it, deny
on bucket mismatch, then allow exactly when the token's keys and the
asset's tilde-joined keys share an element (`accessKeys.includes(key)`).
`.ok` is the served file stream. -/
def accessorViaReadToken (removeExt : String → String)
    (decodeP : String → Option SecretPayload) (decryptM : String → String)
    (st : DB) (now : Int) (assetIdParam : String) (cookie : Option Jwt) :
    Except Err AssetRow :=
  let assetId := removeExt assetIdParam
  match st.assets.find? (fun a => a.id == assetId) with
  | none => .error .notFound
  | some asset =>
    match asset.keys with
    | none => .ok asset
    | some ks =>
      match cookie with
      | none => .error .tokenRequired
      | some readToken =>
        match verifyReadToken decodeP decryptM st now readToken with
        | .error e => .error e
        | .ok verified =>
          if verified.bucketId ≠ asset.bucketId then .error .wrongBucket
          else
            -- `asset.keys ? asset.keys.split("~") : []` ("" is falsy)
            let accessKeys := if ks = "" then [] else splitTilde ks
            if verified.keys.any (fun k => accessKeys.contains k) then .ok asset
            else .error .noKeyOverlap

/-!  The cipher (secret.ts).  The node `crypto` primitives are external
collaborators; the embedding is parametric in them, over an abstract type
`B` of byte buffers. -/

/-- The node `crypto` operations used by secret.ts: the two digests, the
aes-256-ctr stream cipher keyed by `(key, iv)`, and the byte/text codecs. -/
structure NodeCrypto (B : Type) where
  sha256 : B → B
  md5 : B → B
  aesCtrEncrypt : B → B → B → B
  aesCtrDecrypt : B → B → B → B
  utf8Encode : String → B
  utf8Decode : B → String
  hexEncode : B → String
  hexDecode : String → B

/-- `crypto.createHash("sha256").update(secret).digest()` — the 256-bit key. -/
def deriveKey {B : Type} (nc : NodeCrypto B) (secret : String) : B :=
  nc.sha256 (nc.utf8Encode secret)

/-- `crypto.createHash("md5").update(secret).digest()` — the 128-bit IV. -/
def deriveIV {B : Type} (nc : NodeCrypto B) (secret : String) : B :=
  nc.md5 (nc.utf8Encode secret)

/-- `masterSecret ? derive…(masterSecret) : ENCRYPTION_…` — the key
material actually hashed: the caller's string when truthy, otherwise
`env.MASTER_SECRET_KEY` (the module-level constants hash exactly that). -/
def keyMaterial (masterEnv : String) : Option String → String
  | some s => if s = "" then masterEnv else s
  | none => masterEnv

/-- `encrypt(raw, masterSecret?)` (secret.ts): aes-256-ctr under the
sha256-derived key and md5-derived IV of the key material, hex-encoded. -/
def encrypt {B : Type} (nc : NodeCrypto B) (masterEnv raw : String)
    (masterSecret : Option String) : String :=
  let km := keyMaterial masterEnv masterSecret
  nc.hexEncode (nc.aesCtrEncrypt (deriveKey nc km) (deriveIV nc km) (nc.utf8Encode raw))

/-- `decrypt(encryptedValue, masterSecret?)` (secret.ts). -/
def decrypt {B : Type} (nc : NodeCrypto B) (masterEnv encryptedValue : String)
    (masterSecret : Option String) : String :=
  let km := keyMaterial masterEnv masterSecret
  nc.utf8Decode (nc.aesCtrDecrypt (deriveKey nc km) (deriveIV nc km) (nc.hexDecode encryptedValue))

/-- One call to `encrypt` in a runtime with an ambient entropy stream
(modelled as a position counter advanced by every draw of randomness).
The body of `encrypt` performs hash, cipher and codec calls only — never
`crypto.randomBytes` or any other draw — so a call maps the entropy
position through unchanged. -/
def encryptCall {B : Type} (nc : NodeCrypto B) (masterEnv raw : String)
    (masterSecret : Option String) (entropy : Nat) : String × Nat :=
  (encrypt nc masterEnv raw masterSecret, entropy)

/-- The filename "formed by concatenating the tag keys and the asset id
with a tilde separator", read directly off the spec sentence. -/
def tildeConcat (keys : List String) (assetId : String) : String :=
  keys.foldr (fun k acc => k ++ "~" ++ acc) assetId

/-- A trivial instantiation of the crypto primitives (identity cipher and
codecs over `String` buffers) used to evaluate the round-trip theorem. -/
def ncTrivial : NodeCrypto String :=
  { sha256 := fun b => b
    md5 := fun b => "m" ++ b
    aesCtrEncrypt := fun _ _ d => d
    aesCtrDecrypt := fun _ _ d => d
    utf8Encode := fun s => s
    utf8Decode := fun b => b
    hexEncode := fun b => b
    hexDecode := fun s => s }

/-!  Theorems. -/

theorem intercalate_go_hom (bs : List String) :
    ∀ x y : String, String.intercalate.go (x ++ y) "~" bs = x ++ String.intercalate.go y "~" bs := by
  induction bs with
  | nil => intro x y; simp [String.intercalate.go]
  | cons c bs ih =>
    intro x y
    show String.intercalate.go (x ++ y ++ "~" ++ c) "~" bs = _
    have h : x ++ y ++ "~" ++ c = x ++ (y ++ "~" ++ c) := by
      simp [String.append_assoc]
    rw [h, ih]
    rfl

theorem intercalate_go_ne_nil (bs : List String) (hbs : bs ≠ []) (k : String) :
    String.intercalate.go k "~" bs = k ++ "~" ++ String.intercalate "~" bs := by
  match bs with
  | [] => exact absurd rfl hbs
  | b :: bs2 =>
    show String.intercalate.go (k ++ "~" ++ b) "~" bs2 = _
    have h : k ++ "~" ++ b = (k ++ "~") ++ b := by simp [String.append_assoc]
    rw [h, intercalate_go_hom]
    simp [String.intercalate, String.append_assoc]

theorem intercalate_append_singleton (ks : List String) (a : String) :
    String.intercalate "~" (ks ++ [a]) = tildeConcat ks a := by
  induction ks with
  | nil => simp [String.intercalate, String.intercalate.go, tildeConcat]
  | cons k ks ih =>
    show String.intercalate.go k "~" (ks ++ [a]) = _
    rw [intercalate_go_ne_nil (ks ++ [a]) (by simp) k, ih]
    rfl

theorem splitCharAux_no_sep (sep : Char) (l : List Char) :
    sep ∉ l → ∀ acc, splitCharAux sep l acc = [String.mk (acc.reverse ++ l)] := by
  induction l with
  | nil => intro _ acc; simp [splitCharAux]
  | cons c cs ih =>
    intro hl acc
    have hc : ¬ c = sep := fun h => hl (List.mem_cons.mpr (Or.inl h.symm))
    have hcs : sep ∉ cs := fun h => hl (List.mem_cons_of_mem c h)
    show (if c = sep then String.mk acc.reverse :: splitCharAux sep cs []
          else splitCharAux sep cs (c :: acc)) = _
    rw [if_neg hc, ih hcs (c :: acc)]
    simp

theorem splitCharAux_sep_split (sep : Char) (l : List Char) :
    sep ∉ l → ∀ rest acc, splitCharAux sep (l ++ sep :: rest) acc
      = String.mk (acc.reverse ++ l) :: splitCharAux sep rest [] := by
  induction l with
  | nil =>
    intro _ rest acc
    show (if sep = sep then String.mk acc.reverse :: splitCharAux sep rest []
          else splitCharAux sep rest (sep :: acc)) = _
    rw [if_pos rfl]
    simp
  | cons c cs ih =>
    intro hl rest acc
    have hc : ¬ c = sep := fun h => hl (List.mem_cons.mpr (Or.inl h.symm))
    have hcs : sep ∉ cs := fun h => hl (List.mem_cons_of_mem c h)
    show (if c = sep then String.mk acc.reverse :: splitCharAux sep (cs ++ sep :: rest) []
          else splitCharAux sep (cs ++ sep :: rest) (c :: acc)) = _
    rw [if_neg hc, ih hcs rest (c :: acc)]
    simp

/-- `path.posix.join` of three plain segments — non-empty, free of `/`,
and not the special `.` or `..` segments — is the slash-separated
concatenation: the normalization pass keeps every segment. -/
theorem posixJoin_plain (u b f : String)
    (hu0 : u ≠ "") (hu1 : u ≠ ".") (hu2 : u ≠ "..") (hu3 : Char.ofNat 47 ∉ u.toList)
    (hb0 : b ≠ "") (hb1 : b ≠ ".") (hb2 : b ≠ "..") (hb3 : Char.ofNat 47 ∉ b.toList)
    (hf0 : f ≠ "") (hf1 : f ≠ ".") (hf2 : f ≠ "..") (hf3 : Char.ofNat 47 ∉ f.toList) :
    posixJoin [u, b, f] = u ++ "/" ++ b ++ "/" ++ f := by
  have hdata : (u ++ "/" ++ b ++ "/" ++ f).data
      = u.data ++ Char.ofNat 47 :: (b.data ++ Char.ofNat 47 :: f.data) := by
    simp only [String.data_append, show ("/" : String).data = [Char.ofNat 47] from rfl]
    simp [List.append_assoc]
  have hune : u.data ≠ [] := fun h => hu0 (String.ext h)
  have hfne : f.data ≠ [] := fun h => hf0 (String.ext h)
  have hne : u ++ "/" ++ b ++ "/" ++ f ≠ "" := by
    intro h
    have hd : (u ++ "/" ++ b ++ "/" ++ f).data = [] := by rw [h]
    rw [hdata] at hd
    simp at hd
  obtain ⟨cu, us, hu⟩ := List.exists_cons_of_ne_nil hune
  obtain ⟨cf, fs, hf⟩ := List.exists_cons_of_ne_nil (show f.data.reverse ≠ [] by simp [hfne])
  have hcu : ¬ cu = Char.ofNat 47 := by
    intro h
    exact hu3 (show Char.ofNat 47 ∈ u.data by rw [hu, ← h]; exact List.mem_cons.mpr (Or.inl rfl))
  have hcf : ¬ cf = Char.ofNat 47 := by
    intro h
    have hmem : cf ∈ f.data.reverse := by rw [hf]; exact List.mem_cons.mpr (Or.inl rfl)
    rw [List.mem_reverse] at hmem
    exact hf3 (h ▸ hmem)
  have hhead : headIsSlash (u ++ "/" ++ b ++ "/" ++ f).toList = false := by
    show headIsSlash (u ++ "/" ++ b ++ "/" ++ f).data = false
    rw [hdata, hu]
    simp [headIsSlash, hcu]
  have htrail : headIsSlash (u ++ "/" ++ b ++ "/" ++ f).toList.reverse = false := by
    show headIsSlash (u ++ "/" ++ b ++ "/" ++ f).data.reverse = false
    rw [hdata]
    simp only [List.reverse_append, List.reverse_cons]
    rw [hf]
    simp [headIsSlash, hcf]
  have hu3d : Char.ofNat 47 ∉ u.data := hu3
  have hb3d : Char.ofNat 47 ∉ b.data := hb3
  have hf3d : Char.ofNat 47 ∉ f.data := hf3
  have hsplit : splitChar (Char.ofNat 47) (u ++ "/" ++ b ++ "/" ++ f) = [u, b, f] := by
    show splitCharAux (Char.ofNat 47) (u ++ "/" ++ b ++ "/" ++ f).data [] = [u, b, f]
    rw [hdata, splitCharAux_sep_split _ _ hu3d _ [], splitCharAux_sep_split _ _ hb3d _ [],
      splitCharAux_no_sep _ _ hf3d []]
    simp only [List.reverse_nil, List.nil_append]
  have hnorm : normalizeSegs true [u, b, f] [] = [u, b, f] := by
    simp [normalizeSegs, hu0, hu1, hu2, hb0, hb1, hb2, hf0, hf1, hf2]
  have hfilter : [u, b, f].filter (fun s => s ≠ "") = [u, b, f] := by
    simp [hu0, hb0, hf0]
  have key : posixNormalize (u ++ "/" ++ b ++ "/" ++ f) = u ++ "/" ++ b ++ "/" ++ f := by
    simp only [posixNormalize, hsplit, hhead, htrail, Bool.not_false, hnorm,
      show String.intercalate "/" [u, b, f] = u ++ "/" ++ b ++ "/" ++ f from rfl]
    simp [hne]
  show (if String.intercalate "/" ([u, b, f].filter (fun s => s ≠ "")) = "" then "."
        else posixNormalize (String.intercalate "/" ([u, b, f].filter (fun s => s ≠ "")))) = _
  rw [hfilter, show String.intercalate "/" [u, b, f] = u ++ "/" ++ b ++ "/" ++ f from rfl,
    if_neg hne, key]

/-- C8 fails on the code: node `path.posix.join` normalizes after
concatenating, and a tag key containing `/` and `..` segments — accepted
verbatim from the request body — collapses the path.  At this input the
source returns `"u1/b~ast1.png"`, not the claimed plain concatenation. -/
theorem generateStoragePath_normalization_counterexample :
    generateStoragePath "u1" "bkt1" ["a/../../b"] "ast1" ".png" = "u1/b~ast1.png"
    ∧ generateStoragePath "u1" "bkt1" ["a/../../b"] "ast1" ".png"
        ≠ "u1" ++ "/" ++ "bkt1" ++ "/" ++ (tildeConcat ["a/../../b"] "ast1" ++ ".png") :=
  ⟨by decide, by decide⟩

/-- C8 amended: the built relative path is the posix join — the slash
concatenation of userId, bucketId and the tilde-joined filename, then
normalized — and whenever those three segments are plain (non-empty, free
of `/`, not `.` or `..`) it equals the plain concatenation; in particular
`buildPath("u1","bkt1",["tag1"],"ast1",".png") = "u1/bkt1/tag1~ast1.png"`. -/
theorem generateStoragePath_plain_segments
    (userId bucketId : String) (keys : List String) (assetId ext : String)
    (hu0 : userId ≠ "") (hu1 : userId ≠ ".") (hu2 : userId ≠ "..")
    (hu3 : Char.ofNat 47 ∉ userId.toList)
    (hb0 : bucketId ≠ "") (hb1 : bucketId ≠ ".") (hb2 : bucketId ≠ "..")
    (hb3 : Char.ofNat 47 ∉ bucketId.toList)
    (hf0 : tildeConcat keys assetId ++ ext ≠ "")
    (hf1 : tildeConcat keys assetId ++ ext ≠ ".")
    (hf2 : tildeConcat keys assetId ++ ext ≠ "..")
    (hf3 : Char.ofNat 47 ∉ (tildeConcat keys assetId ++ ext).toList) :
    generateStoragePath userId bucketId keys assetId ext
      = userId ++ "/" ++ bucketId ++ "/" ++ (tildeConcat keys assetId ++ ext)
    ∧ generateStoragePath "u1" "bkt1" ["tag1"] "ast1" ".png" = "u1/bkt1/tag1~ast1.png" := by
  refine ⟨?_, by decide⟩
  show posixJoin [userId, bucketId, String.intercalate "~" (keys ++ [assetId]) ++ ext] = _
  rw [intercalate_append_singleton]
  exact posixJoin_plain userId bucketId (tildeConcat keys assetId ++ ext)
    hu0 hu1 hu2 hu3 hb0 hb1 hb2 hb3 hf0 hf1 hf2 hf3

theorem generateStoragePath_plain_segments_witness :
    generateStoragePath "u1" "bkt1" ["tag1"] "ast1" ".png"
      = "u1" ++ "/" ++ "bkt1" ++ "/" ++ (tildeConcat ["tag1"] "ast1" ++ ".png")
    ∧ generateStoragePath "u1" "bkt1" ["tag1"] "ast1" ".png" = "u1/bkt1/tag1~ast1.png" :=
  generateStoragePath_plain_segments "u1" "bkt1" ["tag1"] "ast1" ".png"
    (by decide) (by decide) (by decide) (by decide)
    (by decide) (by decide) (by decide) (by decide)
    (by decide) (by decide) (by decide) (by decide)

/-- C5: `encrypt` is deterministic — a call's result depends only on the
plaintext and the key material (also in the omitted-key case), it consumes
no ambient randomness, and both the key and the IV are derived purely by
hashing the key material with two distinct hash functions. -/
theorem encrypt_deterministic {B : Type} (nc : NodeCrypto B) (masterEnv P : String)
    (K : Option String) (e1 e2 : Nat) :
    (encryptCall nc masterEnv P K e1).1 = (encryptCall nc masterEnv P K e2).1
    ∧ (encryptCall nc masterEnv P K e1).2 = e1
    ∧ encrypt nc masterEnv P K
        = nc.hexEncode (nc.aesCtrEncrypt
            (nc.sha256 (nc.utf8Encode (keyMaterial masterEnv K)))
            (nc.md5 (nc.utf8Encode (keyMaterial masterEnv K)))
            (nc.utf8Encode P)) :=
  ⟨rfl, rfl, rfl⟩

/-- C6: cipher round-trip — for every plaintext `P` and non-empty key
material `K`, `decrypt (encrypt P K) K = P`, and likewise when the key is
omitted and the process master key is used for both calls; parametric in
the node crypto primitives, assuming only that the stream cipher inverts
itself under an identical `(key, iv)` pair and that the hex and utf8
codecs invert. -/
theorem decrypt_encrypt_roundtrip {B : Type} (nc : NodeCrypto B) (masterEnv : String)
    (hctr : ∀ k iv d, nc.aesCtrDecrypt k iv (nc.aesCtrEncrypt k iv d) = d)
    (hutf8 : ∀ s, nc.utf8Decode (nc.utf8Encode s) = s)
    (hhex : ∀ b, nc.hexDecode (nc.hexEncode b) = b)
    (P K : String) (hK : K ≠ "") :
    decrypt nc masterEnv (encrypt nc masterEnv P (some K)) (some K) = P
    ∧ decrypt nc masterEnv (encrypt nc masterEnv P none) none = P := by
  constructor
  · simp [decrypt, encrypt, keyMaterial, hK, hctr, hutf8, hhex]
  · simp [decrypt, encrypt, keyMaterial, hctr, hutf8, hhex]

theorem decrypt_encrypt_roundtrip_witness :
    ("key" : String) ≠ ""
    ∧ (decrypt ncTrivial "mk" (encrypt ncTrivial "mk" "hello" (some "key")) (some "key") = "hello"
        ∧ decrypt ncTrivial "mk" (encrypt ncTrivial "mk" "hello" none) none = "hello") :=
  ⟨by decide,
    decrypt_encrypt_roundtrip ncTrivial "mk" (fun _ _ _ => rfl) (fun _ => rfl) (fun _ => rfl)
      "hello" "key" (by decide)⟩

/-- C4: a signing call whose computed ttl `floor((expiry - now)/1000)` is
non-positive — `generateReadToken` resolving a secret whose expiry lies
less than one second in the future — fails with `ExpiredError` instead of
issuing a token whose stated expiry has already passed. -/
theorem generateReadToken_nonpositive_ttl
    (encryptM decryptM : String → String) (encodeP : SecretPayload → String)
    (st : DB) (now : Int) (inputSecret bucketId : String) (keys : List String)
    (s : SecretRow) (e : Int) (b : BucketRow)
    (hfind : st.secrets.find? (fun r => r.secret == encryptM inputSecret) = some s)
    (hexp : s.expiresAt = some e)
    (hnotpast : ¬ e < now)
    (httl : Int.fdiv (e - now) 1000 ≤ 0)
    (hbucket : st.buckets.find? (fun r => r.id == bucketId && r.userId == s.userId) = some b) :
    generateReadToken encryptM decryptM encodeP st now inputSecret bucketId keys
      = .error .expiredError := by
  simp [generateReadToken, hfind, isExpired, hexp, hnotpast, hbucket, sign, httl]

theorem generateReadToken_nonpositive_ttl_witness :
    Int.fdiv (500 - 0) 1000 ≤ 0
    ∧ generateReadToken (fun _ => "c") (fun s => s) (fun _ => "pl")
        ⟨[⟨"s1", "c", some 500, none, "u1"⟩], [⟨"b1", "n", "u1"⟩], []⟩
        0 "raw" "b1" ["k"]
      = .error .expiredError :=
  ⟨by decide,
    generateReadToken_nonpositive_ttl (fun _ => "c") (fun s => s) (fun _ => "pl")
      ⟨[⟨"s1", "c", some 500, none, "u1"⟩], [⟨"b1", "n", "u1"⟩], []⟩
      0 "raw" "b1" ["k"] ⟨"s1", "c", some 500, none, "u1"⟩ 500 ⟨"b1", "n", "u1"⟩
      (by decide) rfl (by decide) (by decide) (by decide)⟩

/-- C9: invoking `createAsset` with a null `keys` value — which the serve
controller does whenever the client sends a null or empty keys field,
since the parameter default `keys = []` replaces only `undefined` — throws
a `TypeError` from the spread inside `generateStoragePath` before any file
is written or any asset row is created. -/
theorem createAsset_null_keys_typeError
    (sanitize extnameF : String → String) (storageDir : String) (st : DB) (fs : List String)
    (persistErr : Option Err) (file : FileUpload) (bucketId userId assetId : String)
    (b : BucketRow)
    (hb : st.buckets.find? (fun r => r.id == bucketId && r.userId == userId) = some b) :
    createAsset sanitize extnameF storageDir st fs persistErr file bucketId userId none assetId
      = (.error .typeError, st, fs)
    ∧ parseServeKeys none = none ∧ parseServeKeys (some "") = none := by
  refine ⟨?_, rfl, by simp [parseServeKeys]⟩
  simp [createAsset, hb, generateStoragePathJS]

theorem createAsset_null_keys_typeError_witness :
    createAsset (fun n => n) (fun _ => ".png") "root"
        ⟨[], [⟨"b1", "n", "u1"⟩], []⟩ [] none ⟨"f.png", 10⟩ "b1" "u1" none "a1"
      = (.error .typeError, ⟨[], [⟨"b1", "n", "u1"⟩], []⟩, [])
    ∧ parseServeKeys none = none ∧ parseServeKeys (some "") = none :=
  createAsset_null_keys_typeError (fun n => n) (fun _ => ".png") "root"
    ⟨[], [⟨"b1", "n", "u1"⟩], []⟩ [] none ⟨"f.png", 10⟩ "b1" "u1" "a1"
    ⟨"b1", "n", "u1"⟩ (by decide)

theorem ceil_div_1024 (n : Nat) :
    (n + 1023) / 1024 = n / 1024 + (if n % 1024 = 0 then 0 else 1) := by
  have h1024 : (0 : Nat) < 1024 := by decide
  have hmod := Nat.div_add_mod n 1024
  by_cases hr : n % 1024 = 0
  · have h2 : n + 1023 = 1024 * (n / 1024) + 1023 := by omega
    rw [h2, Nat.mul_add_div h1024, Nat.div_eq_of_lt (by decide : (1023 : Nat) < 1024), if_pos hr]
  · have h2 : n + 1023 = 1024 * (n / 1024 + 1) + (n % 1024 - 1) := by omega
    rw [h2, Nat.mul_add_div h1024,
      Nat.div_eq_of_lt (show n % 1024 - 1 < 1024 by omega), if_neg hr]

/-- C10: the size recorded on every created asset row is the uploaded byte
count divided by 1024 and rounded up — `ceil(file.size / 1024)` kilobytes,
not the raw byte count — and that row is persisted in the store. -/
theorem createAsset_size_ceil_kilobytes
    (sanitize extnameF : String → String) (storageDir : String) (st : DB) (fs : List String)
    (persistErr : Option Err) (file : FileUpload) (bucketId userId : String)
    (keys : Option (List String)) (assetId : String)
    (row : AssetRow) (st2 : DB) (fs2 : List String)
    (h : createAsset sanitize extnameF storageDir st fs persistErr file bucketId userId keys assetId
          = (.ok row, st2, fs2)) :
    row.size = file.size / 1024 + (if file.size % 1024 = 0 then 0 else 1)
    ∧ row ∈ st2.assets := by
  simp only [createAsset] at h
  split at h
  · simp at h
  · split at h
    · simp at h
    · split at h
      · simp at h
      · rename_i relativePath hrel persist
        simp only [Prod.mk.injEq] at h
        obtain ⟨h1, h2, h3⟩ := h
        have hrow : row = { id := assetId
                            name := sanitize file.originalname
                            size := (file.size + 1023) / 1024
                            keys := keys.map (fun ks => String.intercalate "~" ks)
                            ref := relativePath
                            bucketId := bucketId } := by
          cases h1
          rfl
        subst hrow
        subst h2
        refine ⟨ceil_div_1024 file.size, ?_⟩
        simp

theorem createAsset_size_ceil_kilobytes_witness :
    (⟨"a1", "f.png", 2, some "t", "u1/b1/t~a1.png", "b1"⟩ : AssetRow).size
        = 2000 / 1024 + (if 2000 % 1024 = 0 then 0 else 1)
    ∧ (⟨"a1", "f.png", 2, some "t", "u1/b1/t~a1.png", "b1"⟩ : AssetRow)
        ∈ (DB.mk [] [⟨"b1", "n", "u1"⟩] [⟨"a1", "f.png", 2, some "t", "u1/b1/t~a1.png", "b1"⟩]).assets :=
  createAsset_size_ceil_kilobytes (fun n => n) (fun _ => ".png") "root"
    ⟨[], [⟨"b1", "n", "u1"⟩], []⟩ [] none ⟨"f.png", 2000⟩ "b1" "u1" (some ["t"]) "a1"
    ⟨"a1", "f.png", 2, some "t", "u1/b1/t~a1.png", "b1"⟩
    ⟨[], [⟨"b1", "n", "u1"⟩], [⟨"a1", "f.png", 2, some "t", "u1/b1/t~a1.png", "b1"⟩]⟩
    ["root/u1/b1/t~a1.png"] (by rfl)

/-- C7: write/rollback atomicity of asset creation — when the
metadata-persist step fails after the file bytes were written, the written
file is deleted as compensation, the original persistence error (not any
error of the compensating delete) reaches the caller, the store is
unchanged (no asset row), and every other file survives. -/
theorem createAsset_rollback
    (sanitize extnameF : String → String) (storageDir : String) (st : DB) (fs : List String)
    (e : Err) (file : FileUpload) (bucketId userId : String) (ks : List String)
    (assetId : String) (b : BucketRow) (path : String)
    (hb : st.buckets.find? (fun r => r.id == bucketId && r.userId == userId) = some b)
    (hpath : path = getFullFilePath storageDir
        (generateStoragePath userId bucketId ks assetId (extnameF (sanitize file.originalname)))) :
    createAsset sanitize extnameF storageDir st fs (some e) file bucketId userId (some ks) assetId
      = (.error e, st, deleteFileFS path (fsWrite path fs))
    ∧ path ∉ deleteFileFS path (fsWrite path fs)
    ∧ ∀ q ∈ fs, q ≠ path → q ∈ deleteFileFS path (fsWrite path fs) := by
  subst hpath
  refine ⟨by simp [createAsset, hb, generateStoragePathJS], by simp [deleteFileFS], ?_⟩
  intro q hq hne
  have hqw : q ∈ fsWrite (getFullFilePath storageDir
      (generateStoragePath userId bucketId ks assetId (extnameF (sanitize file.originalname)))) fs := by
    unfold fsWrite
    split
    · exact hq
    · exact List.mem_cons_of_mem _ hq
  simp [deleteFileFS, List.mem_filter, hqw, hne]

theorem createAsset_rollback_witness :
    createAsset (fun n => n) (fun _ => ".png") "root"
        ⟨[], [⟨"b1", "n", "u1"⟩], []⟩ ["other"] (some (.dbError 7)) ⟨"f.png", 10⟩ "b1" "u1"
        (some ["t"]) "a1"
      = (.error (.dbError 7), ⟨[], [⟨"b1", "n", "u1"⟩], []⟩,
          deleteFileFS "root/u1/b1/t~a1.png" (fsWrite "root/u1/b1/t~a1.png" ["other"]))
    ∧ "root/u1/b1/t~a1.png"
        ∉ deleteFileFS "root/u1/b1/t~a1.png" (fsWrite "root/u1/b1/t~a1.png" ["other"])
    ∧ ∀ q ∈ ["other"], q ≠ "root/u1/b1/t~a1.png"
        → q ∈ deleteFileFS "root/u1/b1/t~a1.png" (fsWrite "root/u1/b1/t~a1.png" ["other"]) :=
  createAsset_rollback (fun n => n) (fun _ => ".png") "root"
    ⟨[], [⟨"b1", "n", "u1"⟩], []⟩ ["other"] (.dbError 7) ⟨"f.png", 10⟩ "b1" "u1" ["t"] "a1"
    ⟨"b1", "n", "u1"⟩ "root/u1/b1/t~a1.png" (by decide) (by decide)

/-- C2: the refetched secret row, not the token's own embedded expiry
claim, is authoritative — a read token whose own expiry has not passed
(`now < exp`) still fails with `NotFound` when the issuing secret has been
deleted, and with `ExpiredSecret` when the secret's stored expiry lies in
the past. -/
theorem verifyReadToken_refetch_authoritative
    (decodeP : String → Option SecretPayload) (decryptM : String → String)
    (st : DB) (now : Int) (payload sigKey : String) (exp : Int) (p : SecretPayload)
    (hdec : decodeP payload = some p)
    (hexp : now < exp) :
    ((∀ s ∈ st.secrets, ¬(s.id = p.secretId ∧ s.userId = p.userId)) →
        verifyReadToken decodeP decryptM st now (.token payload sigKey exp)
          = .error .notFound)
    ∧ (∀ s t, st.secrets.find? (fun r => r.id == p.secretId && r.userId == p.userId) = some s →
        s.expiresAt = some t → t < now →
        verifyReadToken decodeP decryptM st now (.token payload sigKey exp)
          = .error .expiredSecret) := by
  constructor
  · intro hnone
    have hfind : st.secrets.find? (fun r => r.id == p.secretId && r.userId == p.userId) = none := by
      rw [List.find?_eq_none]
      intro x hx
      simpa using hnone x hx
    simp [verifyReadToken, safeDecode, hdec, hfind]
  · intro s t hfind hsome ht
    simp [verifyReadToken, safeDecode, hdec, hfind, isExpired, hsome, ht]

theorem verifyReadToken_refetch_authoritative_witness :
    (0 : Int) < 99999
    ∧ verifyReadToken
        (fun c => if c = "pl" then some ⟨"s1", "u1", none, some 99999, .read, "b1", ["k"], 0⟩ else none)
        (fun s => s) ⟨[], [], []⟩ 0 (.token "pl" "raw" 99999) = .error .notFound
    ∧ verifyReadToken
        (fun c => if c = "pl" then some ⟨"s1", "u1", none, some 99999, .read, "b1", ["k"], 0⟩ else none)
        (fun s => s) ⟨[⟨"s1", "raw", some 500, none, "u1"⟩], [], []⟩ 1000
        (.token "pl" "raw" 99999) = .error .expiredSecret :=
  ⟨by decide,
    (verifyReadToken_refetch_authoritative
        (fun c => if c = "pl" then some ⟨"s1", "u1", none, some 99999, .read, "b1", ["k"], 0⟩ else none)
        (fun s => s) ⟨[], [], []⟩ 0 "pl" "raw" 99999
        ⟨"s1", "u1", none, some 99999, .read, "b1", ["k"], 0⟩ (by rfl) (by decide)).1
      (by simp),
    (verifyReadToken_refetch_authoritative
        (fun c => if c = "pl" then some ⟨"s1", "u1", none, some 99999, .read, "b1", ["k"], 0⟩ else none)
        (fun s => s) ⟨[⟨"s1", "raw", some 500, none, "u1"⟩], [], []⟩ 1000 "pl" "raw" 99999
        ⟨"s1", "u1", none, some 99999, .read, "b1", ["k"], 0⟩ (by rfl) (by decide)).2
      ⟨"s1", "raw", some 500, none, "u1"⟩ 500 (by rfl) rfl (by decide)⟩

/-- C1 fails on the code: `verifySignedUrl` refetches the secret and checks
its expiry and the signature, then fetches the asset **by id only** — it
never re-checks that the secret's owner owns the asset's bucket.  In this
store the accepted token's secret belongs to `u1` while the referenced
asset lives in a bucket owned by `u2`, and verification still returns the
asset. -/
theorem verifySignedUrl_cross_owner_counterexample :
    verifySignedUrl
        (fun c => if c = "pl" then some ⟨"a1", "s1"⟩ else none)
        (fun _ => "raw")
        ⟨[⟨"s1", "cs", none, none, "u1"⟩], [⟨"b2", "B", "u2"⟩], [⟨"a1", "f", 1, none, "r", "b2"⟩]⟩
        0 (.token "pl" "raw" 10)
      = .ok (⟨"a1", "f", 1, none, "r", "b2"⟩, ⟨"b2", "B", "u2"⟩)
    ∧ ∀ b ∈ (⟨[⟨"s1", "cs", none, none, "u1"⟩], [⟨"b2", "B", "u2"⟩],
          [⟨"a1", "f", 1, none, "r", "b2"⟩]⟩ : DB).buckets,
        ¬(b.userId = "u1" ∧ b.id = "b2") :=
  ⟨by rfl, by decide⟩

/-- C1 as the code has it: acceptance of a signed URL guarantees that the
referenced secret still resolves (exists, unexpired) and that the
referenced asset still exists; when the asset has been deleted — the
prerequisite of deleting its bucket — verification fails with `NotFound`.
Bucket ownership is not re-verified at verification time. -/
theorem verifySignedUrl_asset_existence
    (decodeP : String → Option SignedUrlPayload) (decryptM : String → String)
    (st : DB) (now : Int) (tok : Jwt) :
    (∀ payload v s w, safeDecode tok = some payload → decodeP payload = some v →
        st.secrets.find? (fun r => r.id == v.secretId) = some s →
        isExpired s.expiresAt now = false →
        safeVerify tok (decryptM s.secret) now = some w →
        (∀ a ∈ st.assets, a.id ≠ v.assetId) →
        verifySignedUrl decodeP decryptM st now tok = .error .notFound)
    ∧ ∀ ab, verifySignedUrl decodeP decryptM st now tok = .ok ab →
        ab.1 ∈ st.assets ∧ ∃ s ∈ st.secrets, isExpired s.expiresAt now = false := by
  constructor
  · intro payload v s w hdec hdecP hfind hexp hver hnone
    have hassets : st.assets.find? (fun a => a.id == v.assetId) = none := by
      rw [List.find?_eq_none]
      intro x hx
      simpa using hnone x hx
    simp [verifySignedUrl, hdec, hdecP, hfind, hexp, hver, hassets]
  · intro ab h
    simp only [verifySignedUrl] at h
    split at h
    · exact absurd h (by simp)
    split at h
    · exact absurd h (by simp)
    split at h
    · exact absurd h (by simp)
    rename_i v secretRecord hfind
    split at h
    · exact absurd h (by simp)
    rename_i hexp
    split at h
    · exact absurd h (by simp)
    split at h
    · exact absurd h (by simp)
    rename_i asset hasset
    split at h
    · exact absurd h (by simp)
    rename_i bucket hbucket
    cases h
    exact ⟨List.mem_of_find?_eq_some hasset,
      secretRecord, List.mem_of_find?_eq_some hfind, by simpa using hexp⟩

theorem verifySignedUrl_asset_existence_witness :
    verifySignedUrl
        (fun c => if c = "pl" then some ⟨"a1", "s1"⟩ else none)
        (fun _ => "raw")
        ⟨[⟨"s1", "cs", none, none, "u1"⟩], [⟨"b1", "B", "u1"⟩], []⟩
        0 (.token "pl" "raw" 10)
      = .error .notFound :=
  (verifySignedUrl_asset_existence
      (fun c => if c = "pl" then some ⟨"a1", "s1"⟩ else none)
      (fun _ => "raw")
      ⟨[⟨"s1", "cs", none, none, "u1"⟩], [⟨"b1", "B", "u1"⟩], []⟩
      0 (.token "pl" "raw" 10)).1
    "pl" ⟨"a1", "s1"⟩ ⟨"s1", "cs", none, none, "u1"⟩ "pl"
    rfl (by rfl) (by rfl) rfl (by rfl) (by simp)

/-- C3: serving an asset to the holder of a verified read token — a null
keys field bypasses the gate entirely; otherwise the request is denied
when the token's bucket differs from the asset's bucket, and allowed
exactly when the asset's tilde-joined tag-key list and the token's key
list share at least one element under exact string equality. -/
theorem accessorViaReadToken_gate
    (removeExt : String → String) (decodeP : String → Option SecretPayload)
    (decryptM : String → String) (st : DB) (now : Int) (assetIdParam : String)
    (cookie : Option Jwt) (asset : AssetRow)
    (hfind : st.assets.find? (fun a => a.id == removeExt assetIdParam) = some asset) :
    (asset.keys = none →
        accessorViaReadToken removeExt decodeP decryptM st now assetIdParam cookie = .ok asset)
    ∧ ∀ ks tok verified, asset.keys = some ks → ks ≠ "" → cookie = some tok →
        verifyReadToken decodeP decryptM st now tok = .ok verified →
        ((verified.bucketId ≠ asset.bucketId →
            accessorViaReadToken removeExt decodeP decryptM st now assetIdParam cookie
              = .error .wrongBucket)
         ∧ (verified.bucketId = asset.bucketId →
            (accessorViaReadToken removeExt decodeP decryptM st now assetIdParam cookie
                = .ok asset
              ↔ ∃ k ∈ verified.keys, k ∈ splitTilde ks))) := by
  constructor
  · intro hk
    simp [accessorViaReadToken, hfind, hk]
  · intro ks tok verified hk hks hc hv
    constructor
    · intro hne
      simp [accessorViaReadToken, hfind, hk, hc, hv, hne]
    · intro heq
      simp only [accessorViaReadToken, hfind, hk, hc, hv]
      rw [if_neg (by simp [heq]), if_neg hks]
      by_cases hany : verified.keys.any (fun k => (splitTilde ks).contains k) = true
      · rw [if_pos hany]
        simpa [List.any_eq_true] using hany
      · rw [if_neg hany]
        constructor
        · intro hcontra
          exact absurd hcontra (by simp)
        · intro hex
          exact absurd (by simpa [List.any_eq_true] using hex) hany

theorem accessorViaReadToken_gate_witness :
    accessorViaReadToken (fun s => s)
        (fun c => if c = "pl" then some ⟨"s1", "u1", none, none, .read, "b1", ["b", "c"], 0⟩ else none)
        (fun _ => "raw")
        ⟨[⟨"s1", "cs", none, none, "u1"⟩], [⟨"b1", "n", "u1"⟩],
          [⟨"a1", "f", 1, some "a~b", "r", "b1"⟩]⟩
        0 "a1" (some (.token "pl" "raw" 10))
      = .ok ⟨"a1", "f", 1, some "a~b", "r", "b1"⟩
    ∧ accessorViaReadToken (fun s => s)
        (fun c => if c = "pl" then some ⟨"s1", "u1", none, none, .read, "b1", ["x", "y"], 0⟩ else none)
        (fun _ => "raw")
        ⟨[⟨"s1", "cs", none, none, "u1"⟩], [⟨"b1", "n", "u1"⟩],
          [⟨"a1", "f", 1, some "a~b", "r", "b1"⟩]⟩
        0 "a1" (some (.token "pl" "raw" 10))
      ≠ .ok ⟨"a1", "f", 1, some "a~b", "r", "b1"⟩ :=
  ⟨(((accessorViaReadToken_gate (fun s => s)
        (fun c => if c = "pl" then some ⟨"s1", "u1", none, none, .read, "b1", ["b", "c"], 0⟩ else none)
        (fun _ => "raw")
        ⟨[⟨"s1", "cs", none, none, "u1"⟩], [⟨"b1", "n", "u1"⟩],
          [⟨"a1", "f", 1, some "a~b", "r", "b1"⟩]⟩
        0 "a1" (some (.token "pl" "raw" 10))
        ⟨"a1", "f", 1, some "a~b", "r", "b1"⟩ (by rfl)).2
      "a~b" (.token "pl" "raw" 10) ⟨"s1", "u1", none, none, .read, "b1", ["b", "c"], 0⟩
      rfl (by decide) rfl (by rfl)).2 rfl).mpr ⟨"b", by decide, by decide⟩,
   fun hcontra =>
    absurd ((((accessorViaReadToken_gate (fun s => s)
        (fun c => if c = "pl" then some ⟨"s1", "u1", none, none, .read, "b1", ["x", "y"], 0⟩ else none)
        (fun _ => "raw")
        ⟨[⟨"s1", "cs", none, none, "u1"⟩], [⟨"b1", "n", "u1"⟩],
          [⟨"a1", "f", 1, some "a~b", "r", "b1"⟩]⟩
        0 "a1" (some (.token "pl" "raw" 10))
        ⟨"a1", "f", 1, some "a~b", "r", "b1"⟩ (by rfl)).2
      "a~b" (.token "pl" "raw" 10) ⟨"s1", "u1", none, none, .read, "b1", ["x", "y"], 0⟩
      rfl (by decide) rfl (by rfl)).2 rfl).mp hcontra) (by decide)⟩

end AssetsService
